import Mathlib

/-!
Verification of the federated leave handshake handlers
(`MakeLeave` / `SendLeave`, src/federationapi/routing/leave.go).

The two handlers are embedded as pure Lean functions.  Every external
collaborator (room version resolver, user-ID splitter, event builder,
authorization evaluator, key verifier, event ingestion) is supplied as an
environment of oracles capturing the collaborator's response for this
request's inputs, exactly mirroring what the Go code observes through each
call.  Each handler returns the `util.JSONResponse` it would produce
together with the ordered trace of external calls it performed, so that
frame conditions ("no ingestion happened") and ordering properties
("ingestion is last") are statable.
-/

/-- `gomatrixserverlib.RoomVersion`: opaque version tag. -/
abbrev RoomVersion := String

/-- A Matrix server name (`gomatrixserverlib.ServerName`). -/
abbrev ServerName := String

/-- Opaque built event (`*gomatrixserverlib.Event` produced by
`eventutil.BuildEvent`); `MakeLeave` only passes it to the authorization
evaluator, so it is opaque to the handler. -/
abbrev PDU := String

/-- Opaque state event (an element of `queryRes.StateEvents`, unwrapped to
`*gomatrixserverlib.Event` before being handed to `NewAuthEvents`). -/
abbrev StateEvent := String

/-- `gomatrixserverlib.Leave`, the membership constant `"leave"`. -/
def Leave : String := "leave"

deriving instance DecidableEq for Except

/-- Outcome of `rsAPI.QueryRoomVersionForRoom` as `MakeLeave` receives it:
success carries the version; failure is a Go `error` whose cause is either
that no version is known for the room or a transport problem.  The Go
handler only tests `err != nil` and never inspects which cause occurred. -/
inductive ResolverErr where
  | roomUnknown
  | transportError
  deriving DecidableEq

/-- The membership-content map set by `builder.SetContent` in `MakeLeave`
(`map[string]interface{}{"membership": gomatrixserverlib.Leave}`). -/
structure MemberContent where
  membership : String
  deriving DecidableEq

/-- `gomatrixserverlib.EventBuilder` as populated by `MakeLeave`. -/
structure EventBuilder where
  sender : String
  room_id : String
  type : String
  state_key : Option String
  content : Option MemberContent
  deriving DecidableEq

/-- Failure cases of `eventutil.BuildEvent` that `MakeLeave`
distinguishes: `eventutil.ErrRoomNoExists`, a
`gomatrixserverlib.BadJSONError` carrying a message, or any other error. -/
inductive BuildErr where
  | roomNoExists
  | badJSON (msg : String)
  | other
  deriving DecidableEq

/-- The observable fields of a parsed `*gomatrixserverlib.Event` that
`SendLeave` reads: `RoomID()`, `EventID()`, `Origin()`,
`OriginServerTS()`, the result of `Membership()`, and the canonical JSON
of `Redact()` that is handed to the key verifier. -/
structure Event where
  room_id : String
  event_id : String
  origin : ServerName
  origin_server_ts : Nat
  membershipR : Except String String
  redactedJSON : String
  deriving DecidableEq

/-- `event.Headered(roomVersion)`: the event paired with its version. -/
abbrev HeaderedEvent := Event × RoomVersion

/-- `gomatrixserverlib.VerifyJSONRequest` as constructed by `SendLeave`.
Field names follow the Go struct (lower-cased). -/
structure VerifyJSONRequest where
  serverName : ServerName
  message : String
  atTS : Nat
  strictValidityChecking : Bool
  deriving DecidableEq

/-- `gomatrixserverlib.VerifyJSONResult`: per-signature outcome; a `some`
error means the signature did not verify. -/
structure VerifyResult where
  error : Option String
  deriving DecidableEq

/-- The JSON bodies the two handlers can return
(`jsonerror.*` constructors plus the two success payloads). -/
inductive JSONBody where
  | internalServerError
  | notFound (msg : String)
  | badJSON (msg : String)
  | notJSON (msg : String)
  | forbidden (msg : String)
  | unsupportedRoomVersion (msg : String)
  | makeLeaveResponse (room_version : RoomVersion) (event : EventBuilder)
  | empty
  deriving DecidableEq

/-- `util.JSONResponse`: HTTP status code plus JSON body. -/
structure JSONResponse where
  Code : Nat
  JSON : JSONBody
  deriving DecidableEq

/-- One external collaborator call, recorded in order of execution. -/
inductive Call where
  | queryVersion (roomID : String)
  | splitUserID (userID : String)
  | build (b : EventBuilder)
  | authCheck (e : PDU) (state : List StateEvent)
  | parse (ver : RoomVersion)
  | verify (req : VerifyJSONRequest)
  | ingest (events : List HeaderedEvent) (sendAsServer : ServerName)
  deriving DecidableEq

/-- Collaborator responses observed by one `MakeLeave` request:
the room-version resolver's answer for `roomID`, the result of
`gomatrixserverlib.SplitID('@', userID)`, whether `builder.SetContent`
errors (Go JSON marshalling of the fixed membership map), the result of
`eventutil.BuildEvent` (built event plus the `queryRes.StateEvents` it
loaded), and `gomatrixserverlib.Allowed` over the built event and a
provider made from those state events. -/
structure MakeLeaveEnv where
  queryRoomVersionForRoom : Except ResolverErr RoomVersion
  splitID : Except Unit (String × ServerName)
  setContentFails : Bool
  buildEvent : EventBuilder → Except BuildErr (PDU × List StateEvent)
  allowed : PDU → List StateEvent → Except String Unit

/-- The event template `MakeLeave` constructs: the `EventBuilder` of
lines 59-64 after `SetContent` stored the membership map. -/
def leaveBuilder (roomID userID : String) : EventBuilder where
  sender := userID
  room_id := roomID
  type := "m.room.member"
  state_key := some userID
  content := some ⟨Leave⟩

/-- `MakeLeave` (src/federationapi/routing/leave.go lines 28-108),
embedded step for step.  `origin` is `request.Origin()`.  Returns the
response and the trace of collaborator calls. -/
def MakeLeave (env : MakeLeaveEnv) (origin : ServerName)
    (roomID userID : String) : JSONResponse × List Call :=
  match env.queryRoomVersionForRoom with
  | .error _ =>
      (⟨500, .internalServerError⟩, [.queryVersion roomID])
  | .ok ver =>
    match env.splitID with
    | .error _ =>
        (⟨400, .badJSON "Invalid UserID"⟩,
         [.queryVersion roomID, .splitUserID userID])
    | .ok (_, domain) =>
      if domain ≠ origin then
        (⟨403, .forbidden "The leave must be sent by the server of the user"⟩,
         [.queryVersion roomID, .splitUserID userID])
      else
        if env.setContentFails then
          (⟨500, .internalServerError⟩,
           [.queryVersion roomID, .splitUserID userID])
        else
          match env.buildEvent (leaveBuilder roomID userID) with
          | .error .roomNoExists =>
              (⟨404, .notFound "Room does not exist"⟩,
               [.queryVersion roomID, .splitUserID userID,
                .build (leaveBuilder roomID userID)])
          | .error (.badJSON msg) =>
              (⟨400, .badJSON msg⟩,
               [.queryVersion roomID, .splitUserID userID,
                .build (leaveBuilder roomID userID)])
          | .error .other =>
              (⟨500, .internalServerError⟩,
               [.queryVersion roomID, .splitUserID userID,
                .build (leaveBuilder roomID userID)])
          | .ok (event, stateEvents) =>
            match env.allowed event stateEvents with
            | .error msg =>
                (⟨403, .forbidden msg⟩,
                 [.queryVersion roomID, .splitUserID userID,
                  .build (leaveBuilder roomID userID),
                  .authCheck event stateEvents])
            | .ok _ =>
                (⟨200, .makeLeaveResponse ver (leaveBuilder roomID userID)⟩,
                 [.queryVersion roomID, .splitUserID userID,
                  .build (leaveBuilder roomID userID),
                  .authCheck event stateEvents])

/-- Collaborator responses observed by one `SendLeave` request: the
room-version resolver's answer (failure carries `err.Error()`), the parse
`NewEventFromUntrustedJSON(request.Content(), ver)` as a function of the
version it is given, the key verifier `keys.VerifyJSONs` (the handler
always passes a single request and reads the single result; failure is a
transport error), the ingestion `api.SendEvents`, and
`cfg.Matrix.ServerName`. -/
structure SendLeaveEnv where
  queryRoomVersionForRoom : Except String RoomVersion
  newEventFromUntrustedJSON : RoomVersion → Except String Event
  verifyJSONs : VerifyJSONRequest → Except Unit VerifyResult
  sendEvents : List HeaderedEvent → ServerName → Except Unit Unit
  serverName : ServerName

/-- `SendLeave` (src/federationapi/routing/leave.go lines 111-213),
embedded step for step.  `origin` is `request.Origin()`.  Returns the
response and the trace of collaborator calls. -/
def SendLeave (env : SendLeaveEnv) (origin : ServerName)
    (roomID eventID : String) : JSONResponse × List Call :=
  match env.queryRoomVersionForRoom with
  | .error e =>
      (⟨400, .unsupportedRoomVersion e⟩, [.queryVersion roomID])
  | .ok ver =>
    match env.newEventFromUntrustedJSON ver with
    | .error e =>
        (⟨400, .notJSON ("The request body could not be decoded into valid JSON. " ++ e)⟩,
         [.queryVersion roomID, .parse ver])
    | .ok event =>
      if event.room_id ≠ roomID then
        (⟨400, .badJSON "The room ID in the request path must match the room ID in the leave event JSON"⟩,
         [.queryVersion roomID, .parse ver])
      else if event.event_id ≠ eventID then
        (⟨400, .badJSON "The event ID in the request path must match the event ID in the leave event JSON"⟩,
         [.queryVersion roomID, .parse ver])
      else if event.origin ≠ origin then
        (⟨403, .forbidden "The leave must be sent by the server it originated on"⟩,
         [.queryVersion roomID, .parse ver])
      else
        let vreq : VerifyJSONRequest :=
          { serverName := event.origin, message := event.redactedJSON,
            atTS := event.origin_server_ts, strictValidityChecking := true }
        match env.verifyJSONs vreq with
        | .error _ =>
            (⟨500, .internalServerError⟩,
             [.queryVersion roomID, .parse ver, .verify vreq])
        | .ok res =>
          match res.error with
          | some _ =>
              (⟨403, .forbidden "The leave must be signed by the server it originated on"⟩,
               [.queryVersion roomID, .parse ver, .verify vreq])
          | none =>
            match event.membershipR with
            | .error _ =>
                (⟨500, .internalServerError⟩,
                 [.queryVersion roomID, .parse ver, .verify vreq])
            | .ok mem =>
              if mem ≠ Leave then
                (⟨400, .badJSON "The membership in the event content must be set to leave"⟩,
                 [.queryVersion roomID, .parse ver, .verify vreq])
              else
                match env.sendEvents [(event, ver)] env.serverName with
                | .error _ =>
                    (⟨500, .internalServerError⟩,
                     [.queryVersion roomID, .parse ver, .verify vreq,
                      .ingest [(event, ver)] env.serverName])
                | .ok _ =>
                    (⟨200, .empty⟩,
                     [.queryVersion roomID, .parse ver, .verify vreq,
                      .ingest [(event, ver)] env.serverName])

/-- Whether a call is a submission to the Event Ingestion Service
(`api.SendEvents`). -/
def Call.isIngest : Call → Bool
  | .ingest _ _ => true
  | _ => false

/-- Whether a call is a signature-verification call (`keys.VerifyJSONs`). -/
def Call.isVerify : Call → Bool
  | .verify _ => true
  | _ => false

/-- Whether a call is a room-version resolution
(`rsAPI.QueryRoomVersionForRoom`). -/
def Call.isQueryVersion : Call → Bool
  | .queryVersion _ => true
  | _ => false

/-- A `MakeLeave` environment in which every collaborator succeeds. -/
def mkEnvOK : MakeLeaveEnv where
  queryRoomVersionForRoom := .ok "1"
  splitID := .ok ("u", "b.org")
  setContentFails := false
  buildEvent := fun _ => .ok ("pdu", ["s1"])
  allowed := fun _ _ => .ok ()

/-- `mkEnvOK` except the room-version resolver reports that no version is
known for the room. -/
def mkEnvRoomUnknown : MakeLeaveEnv :=
  { mkEnvOK with queryRoomVersionForRoom := .error .roomUnknown }

/-- `mkEnvOK` except the room-version resolver fails with a transport
error. -/
def mkEnvTransportErr : MakeLeaveEnv :=
  { mkEnvOK with queryRoomVersionForRoom := .error .transportError }

/-- `mkEnvOK` except event construction reports
`eventutil.ErrRoomNoExists`. -/
def mkEnvRoomNoExists : MakeLeaveEnv :=
  { mkEnvOK with buildEvent := fun _ => .error .roomNoExists }

/-- `mkEnvOK` except the user identifier does not split at `'@'`. -/
def mkEnvBadUserID : MakeLeaveEnv :=
  { mkEnvOK with splitID := .error () }

/-- C1 counterexample: when the room-version resolver finds no version for
the room, `MakeLeave` answers 500 `InternalServerError`, not a 404
not-found condition, exactly as it does for a transport error — the code
branches only on `err != nil` and cannot tell the two apart. -/
theorem makeLeave_roomUnknown_not_notFound :
    (MakeLeave mkEnvRoomUnknown "b.org" "!r:a.org" "@u:b.org").1
      = ⟨500, .internalServerError⟩
    ∧ (MakeLeave mkEnvRoomUnknown "b.org" "!r:a.org" "@u:b.org").1.Code ≠ 404
    ∧ (MakeLeave mkEnvRoomUnknown "b.org" "!r:a.org" "@u:b.org").1
      = (MakeLeave mkEnvTransportErr "b.org" "!r:a.org" "@u:b.org").1 := by
  refine ⟨rfl, by decide, rfl⟩

/-- C1 (amended): any failure of room-version resolution in `MakeLeave` —
no version found or transport error alike — fails with `InternalFailure`
(500); the not-found condition (`RoomUnknown`, 404 "Room does not exist")
is instead surfaced later, when event construction reports
`ErrRoomNoExists`. -/
theorem makeLeave_resolver_failure_is_internal
    (env : MakeLeaveEnv) (origin roomID userID : String) :
    (∀ e, env.queryRoomVersionForRoom = .error e →
      (MakeLeave env origin roomID userID).1 = ⟨500, .internalServerError⟩)
    ∧ (∀ ver u, env.queryRoomVersionForRoom = .ok ver →
        env.splitID = .ok (u, origin) →
        env.setContentFails = false →
        env.buildEvent (leaveBuilder roomID userID) = .error .roomNoExists →
        (MakeLeave env origin roomID userID).1
          = ⟨404, .notFound "Room does not exist"⟩) := by
  constructor
  · intro e he
    simp [MakeLeave, he]
  · intro ver u hver hsplit hsc hbuild
    simp [MakeLeave, hver, hsplit, hsc, hbuild]

/-- Witness for `makeLeave_resolver_failure_is_internal` at concrete
environments: a transport error yields 500, and an unknown room at the
event-construction step yields 404. -/
theorem makeLeave_resolver_failure_is_internal_witness :
    (MakeLeave mkEnvTransportErr "b.org" "!r:a.org" "@u:b.org").1
      = ⟨500, .internalServerError⟩
    ∧ (MakeLeave mkEnvRoomNoExists "b.org" "!r:a.org" "@u:b.org").1
      = ⟨404, .notFound "Room does not exist"⟩ :=
  ⟨(makeLeave_resolver_failure_is_internal mkEnvTransportErr "b.org" "!r:a.org"
      "@u:b.org").1 .transportError rfl,
   (makeLeave_resolver_failure_is_internal mkEnvRoomNoExists "b.org" "!r:a.org"
      "@u:b.org").2 "1" "u" rfl rfl rfl rfl⟩

/-- C5 counterexample: a `MakeLeave` request whose user domain (`b.org`)
differs from the caller (`c.org`) does not fail with `OriginMismatch` when
room-version resolution fails first: the code answers 500
`InternalServerError`, not 403 — so the failure is not independent of room
state. -/
theorem makeLeave_domainMismatch_not_always_forbidden :
    (MakeLeave mkEnvTransportErr "c.org" "!r:a.org" "@u:b.org").1
      = ⟨500, .internalServerError⟩
    ∧ (MakeLeave mkEnvTransportErr "c.org" "!r:a.org" "@u:b.org").1.Code ≠ 403 := by
  refine ⟨rfl, by decide⟩

/-- C5 (amended): provided room-version resolution succeeds, a `MakeLeave`
request whose user domain differs from the calling server's identity fails
with `OriginMismatch` (403 Forbidden), regardless of room state: the event
builder and authorization evaluator are never consulted, whatever they
would answer. -/
theorem makeLeave_domainMismatch_forbidden
    (env : MakeLeaveEnv) (origin roomID userID : String)
    (ver : RoomVersion) (u : String) (d : ServerName)
    (hver : env.queryRoomVersionForRoom = .ok ver)
    (hsplit : env.splitID = .ok (u, d)) (hd : d ≠ origin) :
    (MakeLeave env origin roomID userID).1
      = ⟨403, .forbidden "The leave must be sent by the server of the user"⟩
    ∧ (MakeLeave env origin roomID userID).2
      = [.queryVersion roomID, .splitUserID userID] := by
  constructor <;> simp [MakeLeave, hver, hsplit, hd]

/-- Witness for `makeLeave_domainMismatch_forbidden`: caller `c.org`,
user `@u:b.org`. -/
theorem makeLeave_domainMismatch_forbidden_witness :
    (MakeLeave mkEnvOK "c.org" "!r:a.org" "@u:b.org").1
      = ⟨403, .forbidden "The leave must be sent by the server of the user"⟩
    ∧ (MakeLeave mkEnvOK "c.org" "!r:a.org" "@u:b.org").2
      = [.queryVersion "!r:a.org", .splitUserID "@u:b.org"] :=
  makeLeave_domainMismatch_forbidden mkEnvOK "c.org" "!r:a.org" "@u:b.org"
    "1" "u" "b.org" rfl rfl (by decide)

/-- C10: when room-version resolution succeeds but the user identifier
does not split at `'@'`, `MakeLeave` fails with 400 `BadJSON
"Invalid UserID"` — never with the 403 `OriginMismatch` rejection — and
the outcome is the same for every caller identity, so the shape check
precedes any comparison of the domain against the calling server. -/
theorem makeLeave_invalidUserID_badRequest
    (env : MakeLeaveEnv) (origin roomID userID : String) (ver : RoomVersion)
    (hver : env.queryRoomVersionForRoom = .ok ver)
    (hsplit : env.splitID = .error ()) :
    (MakeLeave env origin roomID userID).1 = ⟨400, .badJSON "Invalid UserID"⟩
    ∧ (∀ m, (MakeLeave env origin roomID userID).1.JSON ≠ .forbidden m)
    ∧ (∀ origin2,
        (MakeLeave env origin2 roomID userID).1
          = (MakeLeave env origin roomID userID).1) := by
  refine ⟨?_, ?_, ?_⟩ <;> simp [MakeLeave, hver, hsplit]

/-- Witness for `makeLeave_invalidUserID_badRequest` at a concrete
environment whose user identifier fails to split. -/
theorem makeLeave_invalidUserID_badRequest_witness :
    (MakeLeave mkEnvBadUserID "b.org" "!r:a.org" "not-a-user-id").1
      = ⟨400, .badJSON "Invalid UserID"⟩
    ∧ (∀ m, (MakeLeave mkEnvBadUserID "b.org" "!r:a.org" "not-a-user-id").1.JSON
        ≠ .forbidden m)
    ∧ (∀ origin2,
        (MakeLeave mkEnvBadUserID origin2 "!r:a.org" "not-a-user-id").1
          = (MakeLeave mkEnvBadUserID "b.org" "!r:a.org" "not-a-user-id").1) :=
  makeLeave_invalidUserID_badRequest mkEnvBadUserID "b.org" "!r:a.org"
    "not-a-user-id" "1" rfl rfl

/-- C4: whenever `MakeLeave` succeeds (200 with a
`{room_version, event}` payload), the returned template has
`content.membership = "leave"` and `sender = state_key = userID`, it is
the builder the event was constructed from, and the authorization
evaluator accepted the built event against the very state events event
construction loaded. -/
theorem makeLeave_success_template
    (env : MakeLeaveEnv) (origin roomID userID : String)
    (ver : RoomVersion) (b : EventBuilder)
    (h : (MakeLeave env origin roomID userID).1
          = ⟨200, .makeLeaveResponse ver b⟩) :
    b.content = some ⟨Leave⟩ ∧ b.sender = userID ∧ b.state_key = some userID
    ∧ b = leaveBuilder roomID userID
    ∧ ∃ ev st, env.buildEvent b = .ok (ev, st) ∧ env.allowed ev st = .ok () := by
  unfold MakeLeave at h
  split at h
  · simp at h
  · split at h
    · simp at h
    · split at h
      · simp at h
      · split at h
        · simp at h
        · split at h
          · simp at h
          · simp at h
          · simp at h
          · rename_i event stateEvents heqBuild
            split at h
            · simp at h
            · simp only [JSONResponse.mk.injEq, JSONBody.makeLeaveResponse.injEq,
                true_and] at h
              obtain ⟨-, hb⟩ := h
              subst hb
              refine ⟨rfl, rfl, rfl, rfl, event, stateEvents, heqBuild, ?_⟩
              rename_i hAllowed
              cases hAl : env.allowed event stateEvents with
              | error e => rw [hAl] at hAllowed; cases hAllowed
              | ok u => rfl

/-- Witness for `makeLeave_success_template`: the all-success environment
returns 200 with the expected template. -/
theorem makeLeave_success_template_witness :
    (leaveBuilder "!r:a.org" "@u:b.org").content = some ⟨Leave⟩
    ∧ (leaveBuilder "!r:a.org" "@u:b.org").sender = "@u:b.org"
    ∧ (leaveBuilder "!r:a.org" "@u:b.org").state_key = some "@u:b.org"
    ∧ leaveBuilder "!r:a.org" "@u:b.org" = leaveBuilder "!r:a.org" "@u:b.org"
    ∧ ∃ ev st,
        mkEnvOK.buildEvent (leaveBuilder "!r:a.org" "@u:b.org") = .ok (ev, st)
        ∧ mkEnvOK.allowed ev st = .ok () :=
  makeLeave_success_template mkEnvOK "b.org" "!r:a.org" "@u:b.org" "1"
    (leaveBuilder "!r:a.org" "@u:b.org") (by decide)

/-- C8: `MakeLeave` never submits anything to the Event Ingestion
Service: whatever the collaborators answer, its call trace contains no
ingestion call — the operation is a pure read-and-template-build with a
dry-run authorization check. -/
theorem makeLeave_no_ingestion
    (env : MakeLeaveEnv) (origin roomID userID : String) :
    ((MakeLeave env origin roomID userID).2.all fun c => ! c.isIngest) = true := by
  unfold MakeLeave
  split
  · simp [Call.isIngest]
  · split
    · simp [Call.isIngest]
    · split
      · simp [Call.isIngest]
      · split
        · simp [Call.isIngest]
        · split <;> try simp [Call.isIngest]
          split <;> simp [Call.isIngest]

/-- The parsed leave event used by the concrete `SendLeave`
environments. -/
def evOK : Event where
  room_id := "!r:a.org"
  event_id := "$e1"
  origin := "b.org"
  origin_server_ts := 1000
  membershipR := .ok "leave"
  redactedJSON := "rjson"

/-- A `SendLeave` environment in which every collaborator succeeds. -/
def slEnvOK : SendLeaveEnv where
  queryRoomVersionForRoom := .ok "1"
  newEventFromUntrustedJSON := fun _ => .ok evOK
  verifyJSONs := fun _ => .ok ⟨none⟩
  sendEvents := fun _ _ => .ok ()
  serverName := "a.org"

/-- `slEnvOK` except the key verifier fails with a transport error. -/
def slEnvVerifyTransportErr : SendLeaveEnv :=
  { slEnvOK with verifyJSONs := fun _ => .error () }

/-- `slEnvOK` except the key verifier reports a bad signature. -/
def slEnvBadSignature : SendLeaveEnv :=
  { slEnvOK with verifyJSONs := fun _ => .ok ⟨some "bad signature"⟩ }

/-- `evOK` with membership `"join"` instead of `"leave"`. -/
def evJoin : Event := { evOK with membershipR := .ok "join" }

/-- `slEnvOK` except the parsed event carries membership `"join"`. -/
def slEnvJoin : SendLeaveEnv :=
  { slEnvOK with newEventFromUntrustedJSON := fun _ => .ok evJoin }

/-- C2: once the payload parses, a `room_id`, `event_id`, or `origin`
that disagrees with the request path or caller is rejected with the
corresponding mismatch error, and the key verifier is never invoked, so
the outcome is independent of signature validity. -/
theorem sendLeave_crosschecks_before_signature
    (env : SendLeaveEnv) (origin roomID eventID : String)
    (ver : RoomVersion) (event : Event)
    (hver : env.queryRoomVersionForRoom = .ok ver)
    (hparse : env.newEventFromUntrustedJSON ver = .ok event) :
    (event.room_id ≠ roomID →
      (SendLeave env origin roomID eventID).1
        = ⟨400, .badJSON "The room ID in the request path must match the room ID in the leave event JSON"⟩
      ∧ ((SendLeave env origin roomID eventID).2.all fun c => ! c.isVerify) = true)
    ∧ (event.room_id = roomID → event.event_id ≠ eventID →
      (SendLeave env origin roomID eventID).1
        = ⟨400, .badJSON "The event ID in the request path must match the event ID in the leave event JSON"⟩
      ∧ ((SendLeave env origin roomID eventID).2.all fun c => ! c.isVerify) = true)
    ∧ (event.room_id = roomID → event.event_id = eventID →
       event.origin ≠ origin →
      (SendLeave env origin roomID eventID).1
        = ⟨403, .forbidden "The leave must be sent by the server it originated on"⟩
      ∧ ((SendLeave env origin roomID eventID).2.all fun c => ! c.isVerify) = true) := by
  refine ⟨fun h1 => ?_, fun h1 h2 => ?_, fun h1 h2 h3 => ?_⟩
  · constructor <;> simp [SendLeave, hver, hparse, h1, Call.isVerify]
  · constructor <;> simp [SendLeave, hver, hparse, h1, h2, Call.isVerify]
  · constructor <;> simp [SendLeave, hver, hparse, h1, h2, h3, Call.isVerify]

/-- Witness for `sendLeave_crosschecks_before_signature`: at the
all-success environment, a mismatched room ID, event ID, or caller each
produces the corresponding rejection with no verification call. -/
theorem sendLeave_crosschecks_before_signature_witness :
    ((SendLeave slEnvOK "b.org" "!other:a.org" "$e1").1
        = ⟨400, .badJSON "The room ID in the request path must match the room ID in the leave event JSON"⟩
      ∧ ((SendLeave slEnvOK "b.org" "!other:a.org" "$e1").2.all
          fun c => ! c.isVerify) = true)
    ∧ ((SendLeave slEnvOK "b.org" "!r:a.org" "$e2").1
        = ⟨400, .badJSON "The event ID in the request path must match the event ID in the leave event JSON"⟩
      ∧ ((SendLeave slEnvOK "b.org" "!r:a.org" "$e2").2.all
          fun c => ! c.isVerify) = true)
    ∧ ((SendLeave slEnvOK "c.org" "!r:a.org" "$e1").1
        = ⟨403, .forbidden "The leave must be sent by the server it originated on"⟩
      ∧ ((SendLeave slEnvOK "c.org" "!r:a.org" "$e1").2.all
          fun c => ! c.isVerify) = true) :=
  ⟨(sendLeave_crosschecks_before_signature slEnvOK "b.org" "!other:a.org" "$e1"
      "1" evOK rfl rfl).1 (by decide),
   (sendLeave_crosschecks_before_signature slEnvOK "b.org" "!r:a.org" "$e2"
      "1" evOK rfl rfl).2.1 (by decide) (by decide),
   (sendLeave_crosschecks_before_signature slEnvOK "c.org" "!r:a.org" "$e1"
      "1" evOK rfl rfl).2.2 (by decide) (by decide) (by decide)⟩

/-- C3: once the cross-checks pass, `SendLeave` issues exactly the
verification request built from the redacted (signable) event, addressed
to the origin's keys, at the event's claimed `origin_server_ts`, with
strict validity checking; a key-server transport failure answers 500
`InternalFailure` while a genuine signature failure answers 403
`SignatureInvalid` — two distinct outcomes. -/
theorem sendLeave_signature_verification
    (env : SendLeaveEnv) (origin roomID eventID : String)
    (ver : RoomVersion) (event : Event)
    (hver : env.queryRoomVersionForRoom = .ok ver)
    (hparse : env.newEventFromUntrustedJSON ver = .ok event)
    (hroom : event.room_id = roomID) (hev : event.event_id = eventID)
    (horig : event.origin = origin) :
    Call.verify
      { serverName := event.origin, message := event.redactedJSON,
        atTS := event.origin_server_ts, strictValidityChecking := true }
      ∈ (SendLeave env origin roomID eventID).2
    ∧ (env.verifyJSONs
        { serverName := event.origin, message := event.redactedJSON,
          atTS := event.origin_server_ts, strictValidityChecking := true }
          = .error () →
        (SendLeave env origin roomID eventID).1 = ⟨500, .internalServerError⟩)
    ∧ (∀ res m, env.verifyJSONs
        { serverName := event.origin, message := event.redactedJSON,
          atTS := event.origin_server_ts, strictValidityChecking := true }
          = .ok res → res.error = some m →
        (SendLeave env origin roomID eventID).1
          = ⟨403, .forbidden "The leave must be signed by the server it originated on"⟩) := by
  subst hroom hev horig
  refine ⟨?_, fun hv => ?_, fun res m hv hre => ?_⟩
  · cases hv : env.verifyJSONs
      { serverName := event.origin, message := event.redactedJSON,
        atTS := event.origin_server_ts, strictValidityChecking := true } with
    | error u => simp [SendLeave, hver, hparse, hv]
    | ok res =>
      cases hre : res.error with
      | some m => simp [SendLeave, hver, hparse, hv, hre]
      | none =>
        cases hmem : event.membershipR with
        | error e => simp [SendLeave, hver, hparse, hv, hre, hmem]
        | ok mem =>
          by_cases hml : mem = Leave
          · cases hse : env.sendEvents [(event, ver)] env.serverName with
            | error u => simp [SendLeave, hver, hparse, hv, hre, hmem, hml, hse]
            | ok u => simp [SendLeave, hver, hparse, hv, hre, hmem, hml, hse]
          · simp [SendLeave, hver, hparse, hv, hre, hmem, hml]
  · simp [SendLeave, hver, hparse, hv]
  · simp [SendLeave, hver, hparse, hv, hre]

/-- Witness for `sendLeave_signature_verification`: a verifier transport
error yields 500; a reported bad signature yields 403; the verification
request is present in the all-success trace. -/
theorem sendLeave_signature_verification_witness :
    Call.verify
      { serverName := evOK.origin, message := evOK.redactedJSON,
        atTS := evOK.origin_server_ts, strictValidityChecking := true }
      ∈ (SendLeave slEnvOK "b.org" "!r:a.org" "$e1").2
    ∧ (SendLeave slEnvVerifyTransportErr "b.org" "!r:a.org" "$e1").1
      = ⟨500, .internalServerError⟩
    ∧ (SendLeave slEnvBadSignature "b.org" "!r:a.org" "$e1").1
      = ⟨403, .forbidden "The leave must be signed by the server it originated on"⟩ :=
  ⟨(sendLeave_signature_verification slEnvOK "b.org" "!r:a.org" "$e1"
      "1" evOK rfl rfl rfl rfl rfl).1,
   (sendLeave_signature_verification slEnvVerifyTransportErr "b.org" "!r:a.org"
      "$e1" "1" evOK rfl rfl rfl rfl rfl).2.1 rfl,
   (sendLeave_signature_verification slEnvBadSignature "b.org" "!r:a.org"
      "$e1" "1" evOK rfl rfl rfl rfl rfl).2.2 ⟨some "bad signature"⟩
      "bad signature" rfl rfl⟩

/-- C6: a correctly-addressed, correctly-signed event whose membership is
any value other than `"leave"` is rejected with 400 `MembershipMismatch`
and nothing is submitted to the Event Ingestion Service. -/
theorem sendLeave_membership_mismatch
    (env : SendLeaveEnv) (origin roomID eventID : String)
    (ver : RoomVersion) (event : Event) (res : VerifyResult) (mem : String)
    (hver : env.queryRoomVersionForRoom = .ok ver)
    (hparse : env.newEventFromUntrustedJSON ver = .ok event)
    (hroom : event.room_id = roomID) (hev : event.event_id = eventID)
    (horig : event.origin = origin)
    (hv : env.verifyJSONs
      { serverName := event.origin, message := event.redactedJSON,
        atTS := event.origin_server_ts, strictValidityChecking := true }
        = .ok res)
    (hre : res.error = none)
    (hmem : event.membershipR = .ok mem) (hne : mem ≠ Leave) :
    (SendLeave env origin roomID eventID).1
      = ⟨400, .badJSON "The membership in the event content must be set to leave"⟩
    ∧ ((SendLeave env origin roomID eventID).2.all fun c => ! c.isIngest) = true := by
  subst hroom hev horig
  constructor <;>
    simp [SendLeave, hver, hparse, hv, hre, hmem, hne, Call.isIngest]

/-- Witness for `sendLeave_membership_mismatch`: a signed membership
`"join"` event is rejected with 400 and never ingested. -/
theorem sendLeave_membership_mismatch_witness :
    (SendLeave slEnvJoin "b.org" "!r:a.org" "$e1").1
      = ⟨400, .badJSON "The membership in the event content must be set to leave"⟩
    ∧ ((SendLeave slEnvJoin "b.org" "!r:a.org" "$e1").2.all
        fun c => ! c.isIngest) = true :=
  sendLeave_membership_mismatch slEnvJoin "b.org" "!r:a.org" "$e1" "1" evJoin
    ⟨none⟩ "join" rfl rfl rfl rfl rfl rfl rfl rfl (by decide)

/-- C7: `SendLeave` submits to the Event Ingestion Service only after
every validation step has succeeded: if an ingestion call appears in the
trace at all, then version resolution, parsing, all three cross-checks,
signature verification and the membership check all passed, and the
ingestion call is the final call of the request. -/
theorem sendLeave_no_partial_success
    (env : SendLeaveEnv) (origin roomID eventID : String)
    (h : ∃ evs s, Call.ingest evs s ∈ (SendLeave env origin roomID eventID).2) :
    ∃ ver event res,
      env.queryRoomVersionForRoom = .ok ver
      ∧ env.newEventFromUntrustedJSON ver = .ok event
      ∧ event.room_id = roomID ∧ event.event_id = eventID
      ∧ event.origin = origin
      ∧ env.verifyJSONs
          { serverName := event.origin, message := event.redactedJSON,
            atTS := event.origin_server_ts, strictValidityChecking := true }
          = .ok res
      ∧ res.error = none
      ∧ event.membershipR = .ok Leave
      ∧ (SendLeave env origin roomID eventID).2
        = [.queryVersion roomID, .parse ver,
           .verify { serverName := event.origin, message := event.redactedJSON,
                     atTS := event.origin_server_ts,
                     strictValidityChecking := true },
           .ingest [(event, ver)] env.serverName] := by
  cases hver : env.queryRoomVersionForRoom with
  | error e => simp [SendLeave, hver] at h
  | ok ver =>
    cases hparse : env.newEventFromUntrustedJSON ver with
    | error e => simp [SendLeave, hver, hparse] at h
    | ok event =>
      by_cases hroom : event.room_id = roomID
      · by_cases hev : event.event_id = eventID
        · by_cases horig : event.origin = origin
          · subst hroom hev horig
            cases hv : env.verifyJSONs
                { serverName := event.origin, message := event.redactedJSON,
                  atTS := event.origin_server_ts,
                  strictValidityChecking := true } with
            | error u => simp [SendLeave, hver, hparse, hv] at h
            | ok res =>
              cases hre : res.error with
              | some m => simp [SendLeave, hver, hparse, hv, hre] at h
              | none =>
                cases hmem : event.membershipR with
                | error e => simp [SendLeave, hver, hparse, hv, hre, hmem] at h
                | ok mem =>
                  by_cases hml : mem = Leave
                  · subst hml
                    refine ⟨ver, event, res, rfl, hparse, rfl, rfl, rfl,
                      hv, hre, hmem, ?_⟩
                    cases hse : env.sendEvents [(event, ver)] env.serverName with
                    | error u =>
                        simp [SendLeave, hver, hparse, hv, hre, hmem, hse]
                    | ok u =>
                        simp [SendLeave, hver, hparse, hv, hre, hmem, hse]
                  · simp [SendLeave, hver, hparse, hv, hre, hmem, hml] at h
          · simp [SendLeave, hver, hparse, hroom, hev, horig] at h
        · simp [SendLeave, hver, hparse, hroom, hev] at h
      · simp [SendLeave, hver, hparse, hroom] at h

/-- Witness for `sendLeave_no_partial_success`: the all-success
environment performs the ingestion as its final call, with every
validation step satisfied. -/
theorem sendLeave_no_partial_success_witness :
    ∃ ver event res,
      slEnvOK.queryRoomVersionForRoom = .ok ver
      ∧ slEnvOK.newEventFromUntrustedJSON ver = .ok event
      ∧ event.room_id = "!r:a.org" ∧ event.event_id = "$e1"
      ∧ event.origin = "b.org"
      ∧ slEnvOK.verifyJSONs
          { serverName := event.origin, message := event.redactedJSON,
            atTS := event.origin_server_ts, strictValidityChecking := true }
          = .ok res
      ∧ res.error = none
      ∧ event.membershipR = .ok Leave
      ∧ (SendLeave slEnvOK "b.org" "!r:a.org" "$e1").2
        = [.queryVersion "!r:a.org", .parse ver,
           .verify { serverName := event.origin, message := event.redactedJSON,
                     atTS := event.origin_server_ts,
                     strictValidityChecking := true },
           .ingest [(event, ver)] slEnvOK.serverName] :=
  sendLeave_no_partial_success slEnvOK "b.org" "!r:a.org" "$e1"
    ⟨[(evOK, "1")], "a.org", by decide⟩

/-- C9: whenever `SendLeave` ingests, the room version it resolved is the
one the payload was parsed with and the one labelling the submitted
headered event; version resolution was performed exactly once in the
request. -/
theorem sendLeave_version_threaded_once
    (env : SendLeaveEnv) (origin roomID eventID : String)
    (evs : List HeaderedEvent) (s : ServerName)
    (h : Call.ingest evs s ∈ (SendLeave env origin roomID eventID).2) :
    ∃ ver event,
      env.queryRoomVersionForRoom = .ok ver
      ∧ env.newEventFromUntrustedJSON ver = .ok event
      ∧ Call.parse ver ∈ (SendLeave env origin roomID eventID).2
      ∧ evs = [(event, ver)]
      ∧ s = env.serverName
      ∧ ((SendLeave env origin roomID eventID).2.countP
          fun c => c.isQueryVersion) = 1 := by
  cases hver : env.queryRoomVersionForRoom with
  | error e => simp [SendLeave, hver] at h
  | ok ver =>
    cases hparse : env.newEventFromUntrustedJSON ver with
    | error e => simp [SendLeave, hver, hparse] at h
    | ok event =>
      by_cases hroom : event.room_id = roomID
      · by_cases hev : event.event_id = eventID
        · by_cases horig : event.origin = origin
          · subst hroom hev horig
            cases hv : env.verifyJSONs
                { serverName := event.origin, message := event.redactedJSON,
                  atTS := event.origin_server_ts,
                  strictValidityChecking := true } with
            | error u => simp [SendLeave, hver, hparse, hv] at h
            | ok res =>
              cases hre : res.error with
              | some m => simp [SendLeave, hver, hparse, hv, hre] at h
              | none =>
                cases hmem : event.membershipR with
                | error e => simp [SendLeave, hver, hparse, hv, hre, hmem] at h
                | ok mem =>
                  by_cases hml : mem = Leave
                  · subst hml
                    cases hse : env.sendEvents [(event, ver)] env.serverName with
                    | error u =>
                        simp [SendLeave, hver, hparse, hv, hre, hmem, hse] at h
                        obtain ⟨h1, h2⟩ := h
                        subst h1; subst h2
                        refine ⟨ver, event, rfl, hparse, ?_, rfl, rfl, ?_⟩
                        · simp [SendLeave, hver, hparse, hv, hre, hmem, hse]
                        · simp [SendLeave, hver, hparse, hv, hre, hmem, hse,
                            Call.isQueryVersion, List.countP_cons]
                    | ok u =>
                        simp [SendLeave, hver, hparse, hv, hre, hmem, hse] at h
                        obtain ⟨h1, h2⟩ := h
                        subst h1; subst h2
                        refine ⟨ver, event, rfl, hparse, ?_, rfl, rfl, ?_⟩
                        · simp [SendLeave, hver, hparse, hv, hre, hmem, hse]
                        · simp [SendLeave, hver, hparse, hv, hre, hmem, hse,
                            Call.isQueryVersion, List.countP_cons]
                  · simp [SendLeave, hver, hparse, hv, hre, hmem, hml] at h
          · simp [SendLeave, hver, hparse, hroom, hev, horig] at h
        · simp [SendLeave, hver, hparse, hroom, hev] at h
      · simp [SendLeave, hver, hparse, hroom] at h

/-- Witness for `sendLeave_version_threaded_once` at the all-success
environment. -/
theorem sendLeave_version_threaded_once_witness :
    ∃ ver event,
      slEnvOK.queryRoomVersionForRoom = .ok ver
      ∧ slEnvOK.newEventFromUntrustedJSON ver = .ok event
      ∧ Call.parse ver ∈ (SendLeave slEnvOK "b.org" "!r:a.org" "$e1").2
      ∧ [(evOK, ("1" : RoomVersion))] = [(event, ver)]
      ∧ ("a.org" : ServerName) = slEnvOK.serverName
      ∧ ((SendLeave slEnvOK "b.org" "!r:a.org" "$e1").2.countP
          fun c => c.isQueryVersion) = 1 :=
  sendLeave_version_threaded_once slEnvOK "b.org" "!r:a.org" "$e1"
    [(evOK, "1")] "a.org" (by decide)
